import Mathlib

/-!
Verification of the PRISM Brain risk-exposure engine.

The development shallowly embeds the two Python modules of the repository:

* `full_calculator.py` — the exposure calculation engine (`RiskCalculator`
  with `calculate_base_exposure`, `calculate_cascading_exposure`,
  `calculate_all_exposures`), together with its static risk database.
* `full_calculator_live.py` — the live probability system (`DataStore`,
  `SignalCollector`, `ProbabilityEngine.update_all_probabilities`).

Modelling conventions:

* Python floats are modelled by exact rationals `ℚ`; every arithmetic
  operation used by the code (`+ - * /`, comparisons, `max`/`min`) is the
  corresponding exact operation on `ℚ`.
* Python's built-in `round(x, n)` (round-half-to-even) is modelled by
  `pyRound` below, on exact rationals.
* Python's stable in-place `list.sort(key=..., reverse=True)` is modelled by
  `List.mergeSort` with the comparison `exposureLE`, which is exactly a
  stable sort descending by the key.
* Python dicts keyed by strings are modelled by association lists in key
  insertion order; dict-comprehension lookups (later entries overwrite
  earlier ones) become `find?` over the reversed list.
* Mutation of the global `DataStore` is modelled by explicit state passing;
  the `raise ValueError` in `DataStore.update_risk_probability` becomes an
  `Except.error` result paired with the (unchanged) store.
* Timestamps and generated UUIDs are ambient IO and are omitted from the
  embedded records; no claim mentions them.
* `ProbabilityEngine.update_all_probabilities` begins by calling the signal
  collector; the collector's returned list is taken as an explicit argument
  `collected` (the file also embeds the concrete simulated collectors).
-/

namespace PrismBrain

/-! ## Embedded definitions -/

/-- Floor of a rational, computed from its normalised numerator and
denominator (`q.den` is always positive, so `Int.fdiv` is the floor). -/
def ratFloor (q : ℚ) : ℤ := Int.fdiv q.num (q.den : ℤ)

/-- Round a rational to the nearest integer, ties to the even integer;
this is the behaviour of Python's built-in `round` on exact values. -/
def roundHalfEven (q : ℚ) : ℤ :=
  let f := ratFloor q
  let r := q - (f : ℚ)
  if r < 1/2 then f
  else if 1/2 < r then f + 1
  else if f % 2 = 0 then f else f + 1

/-- Python's `round(q, n)`: round to `n` decimal places, ties to even. -/
def pyRound (q : ℚ) (n : ℕ) : ℚ := (roundHalfEven (q * 10 ^ n) : ℚ) / 10 ^ n

/-- The `ProcessModel` (fields relevant to the calculation engine). -/
structure ProcessModel where
  id : String
  name : String
  criticality_eur_per_day : ℚ
deriving DecidableEq

/-- One entry of the static `RISK_DATABASE`. -/
structure RiskEntry where
  id : String
  name : String
  domain : String
  probability_current : ℚ
  confidence_level : String
deriving DecidableEq

/-- The `AssessmentModel`. -/
structure AssessmentModel where
  process_id : String
  risk_id : String
  vulnerability : ℚ
  resilience : ℚ
deriving DecidableEq

/-- The `DependencyModel` (the free-text description is irrelevant here). -/
structure DependencyModel where
  upstream_process_id : String
  downstream_process_id : String
  dependency_strength : ℚ
deriving DecidableEq

/-- The `ClientDataModel` (fields used by `calculate_all_exposures`). -/
structure ClientDataModel where
  client_name : String
  industry : String
  geography : String
  processes : List ProcessModel
  assessments : List AssessmentModel
  dependencies : List DependencyModel
deriving DecidableEq

/-- The static 13-entry `RISK_DATABASE` of `full_calculator.py`. -/
def riskDatabase : List RiskEntry :=
  [ { id := "P1.1", name := "Major power grid failure (>48hr) in Europe",
      domain := "Physical", probability_current := 12, confidence_level := "Medium" },
    { id := "P1.2", name := "Natural gas supply disruption (>30% reduction)",
      domain := "Physical", probability_current := 25, confidence_level := "High" },
    { id := "P2.1", name := "Lithium supply shortage (>30% demand unmet)",
      domain := "Physical", probability_current := 35, confidence_level := "High" },
    { id := "P3.1", name := "Extreme heat events (>40C, >7 days)",
      domain := "Physical", probability_current := 45, confidence_level := "High" },
    { id := "S1.1", name := "US-China trade war escalation (tariffs >50%)",
      domain := "Structural", probability_current := 40, confidence_level := "Medium" },
    { id := "S2.1", name := "EU-wide carbon price spike (>150 EUR/ton)",
      domain := "Structural", probability_current := 30, confidence_level := "Medium" },
    { id := "D1.1", name := "Ransomware targeting ICS/SCADA systems",
      domain := "Digital", probability_current := 55, confidence_level := "High" },
    { id := "D1.2", name := "Ransomware targeting ERP/MES systems",
      domain := "Digital", probability_current := 48, confidence_level := "High" },
    { id := "D2.1", name := "Cloud provider major outage (>24hr)",
      domain := "Digital", probability_current := 15, confidence_level := "Medium" },
    { id := "O1.1", name := "Container shipping cost surge (>3x baseline)",
      domain := "Operational", probability_current := 38, confidence_level := "Medium" },
    { id := "O2.1", name := "Labor strike at key supplier (>2 weeks)",
      domain := "Operational", probability_current := 22, confidence_level := "Low" },
    { id := "O3.1", name := "Key component supplier bankruptcy",
      domain := "Operational", probability_current := 18, confidence_level := "Medium" },
    { id := "D3.1", name := "Data breach exposing customer/IP data",
      domain := "Digital", probability_current := 42, confidence_level := "High" } ]

/-- The `risk_lookup = {r["id"]: r for r in RISK_DATABASE}` followed by `.get`;
in a dict comprehension a later entry with the same key overwrites an
earlier one, hence the lookup over the reversed list. -/
def riskLookup (risk_id : String) : Option RiskEntry :=
  riskDatabase.reverse.find? (fun r => r.id == risk_id)

/-- The `process_lookup = {p.id: p for p in client_data.processes}` followed by
`.get`, with the same last-entry-wins dict semantics. -/
def processLookup (processes : List ProcessModel) (process_id : String) : Option ProcessModel :=
  processes.reverse.find? (fun p => p.id == process_id)

/-- The `RiskCalculator.calculate_base_exposure`. -/
def calculate_base_exposure (criticality_eur vulnerability resilience probability : ℚ) : ℚ :=
  let v := vulnerability / 100
  let r := resilience / 100
  let p := probability / 100
  let daily_exposure := criticality_eur * v * (1 - r) * p
  daily_exposure * 365

/-- The `RiskCalculator.calculate_cascading_exposure`. -/
def calculate_cascading_exposure (upstream_exposure dependency_strength downstream_resilience : ℚ) : ℚ :=
  let r := downstream_resilience / 100
  upstream_exposure * dependency_strength * (1 - r)

/-- The inner dependency loop of `calculate_all_exposures`: accumulate the
cascading contribution of every dependency whose upstream process is this
assessment's process, using the resilience of the first assessment (in input
order) matching the downstream process and the same risk id. -/
def cascadingTotal (cd : ClientDataModel) (a : AssessmentModel) (base_exposure : ℚ) : ℚ :=
  cd.dependencies.foldl
    (fun acc dep =>
      if dep.upstream_process_id == a.process_id then
        match cd.assessments.filter
            (fun x => x.process_id == dep.downstream_process_id && x.risk_id == a.risk_id) with
        | [] => acc
        | d :: _ =>
            acc + calculate_cascading_exposure base_exposure dep.dependency_strength d.resilience
      else acc)
    0

/-- The cascading exposure assigned to one assessment, including the
`use_cascading and client_data.dependencies` guard of the source. -/
def cascadingExposureOf (cd : ClientDataModel) (use_cascading : Bool) (a : AssessmentModel)
    (base_exposure : ℚ) : ℚ :=
  if use_cascading && !cd.dependencies.isEmpty then cascadingTotal cd a base_exposure else 0

/-- One record of the `exposures` output list. -/
structure ExposureRecord where
  risk_id : String
  risk_name : String
  domain : String
  process_id : String
  process_name : String
  criticality : ℚ
  vulnerability : ℚ
  resilience : ℚ
  probability : ℚ
  base_exposure_eur : ℚ
  cascading_exposure_eur : ℚ
  total_exposure_eur : ℚ
  confidence_level : String
deriving DecidableEq

/-- The body of the per-assessment loop of `calculate_all_exposures`:
`none` exactly when the process or the risk lookup fails (the `continue`). -/
def buildRecord (cd : ClientDataModel) (use_cascading : Bool) (a : AssessmentModel) :
    Option ExposureRecord :=
  match processLookup cd.processes a.process_id, riskLookup a.risk_id with
  | some process, some risk =>
      let base_exposure := calculate_base_exposure process.criticality_eur_per_day
        a.vulnerability a.resilience risk.probability_current
      let cascading_exposure := cascadingExposureOf cd use_cascading a base_exposure
      let total_exposure := base_exposure + cascading_exposure
      some { risk_id := risk.id, risk_name := risk.name, domain := risk.domain,
             process_id := process.id, process_name := process.name,
             criticality := process.criticality_eur_per_day,
             vulnerability := a.vulnerability, resilience := a.resilience,
             probability := risk.probability_current,
             base_exposure_eur := pyRound base_exposure 2,
             cascading_exposure_eur := pyRound cascading_exposure 2,
             total_exposure_eur := pyRound total_exposure 2,
             confidence_level := risk.confidence_level }
  | _, _ => none

/-- The records in input (assessment) order, before sorting. -/
def rawRecords (cd : ClientDataModel) (use_cascading : Bool) : List ExposureRecord :=
  cd.assessments.filterMap (buildRecord cd use_cascading)

/-- Comparison used for `exposures.sort(key=lambda x: x["total_exposure_eur"],
reverse=True)`: a stable sort under this boolean relation is exactly a stable
descending sort by the key. -/
def exposureLE (x y : ExposureRecord) : Bool :=
  decide (y.total_exposure_eur ≤ x.total_exposure_eur)

/-- The stable descending sort of the source. -/
def sortRecords (l : List ExposureRecord) : List ExposureRecord :=
  l.mergeSort exposureLE

/-- The `summary` block of the response. -/
structure ExposureSummary where
  total_base_exposure : ℚ
  total_cascading_exposure : ℚ
  total_overall_exposure : ℚ
  total_risks_assessed : ℕ
  cascading_percentage : ℚ
deriving DecidableEq

/-- The parts of the `calculate_all_exposures` response relevant here. -/
structure CalculationResult where
  exposures : List ExposureRecord
  summary : ExposureSummary
  client_name : String
  industry : String
  geography : String
deriving DecidableEq

/-- The `RiskCalculator.calculate_all_exposures` (exposure records, sort, and
summary; the by-domain/by-process aggregates are not needed by any claim). -/
def calculate_all_exposures (cd : ClientDataModel) (use_cascading : Bool) : CalculationResult :=
  let exposures := sortRecords (rawRecords cd use_cascading)
  let total_base := (exposures.map (·.base_exposure_eur)).sum
  let total_cascading := (exposures.map (·.cascading_exposure_eur)).sum
  let total_overall := (exposures.map (·.total_exposure_eur)).sum
  { exposures := exposures
    summary :=
      { total_base_exposure := pyRound total_base 2
        total_cascading_exposure := pyRound total_cascading 2
        total_overall_exposure := pyRound total_overall 2
        total_risks_assessed := exposures.length
        cascading_percentage :=
          pyRound (if 0 < total_overall then total_cascading / total_overall * 100 else 0) 1 }
    client_name := cd.client_name
    industry := cd.industry
    geography := cd.geography }

/-- Contribution of one dependency to an assessment's cascading exposure, as
the claim describes it: zero unless the dependency's upstream process is this
assessment's process and some assessment on the downstream process carries
the same risk id; otherwise `base * strength * (1 - downstream_resilience/100)`
with the resilience of the first matching downstream assessment in input
order. -/
def dependencyContribution (cd : ClientDataModel) (a : AssessmentModel) (base : ℚ)
    (dep : DependencyModel) : ℚ :=
  if dep.upstream_process_id == a.process_id then
    match cd.assessments.filter
        (fun x => x.process_id == dep.downstream_process_id && x.risk_id == a.risk_id) with
    | [] => 0
    | d :: _ => base * dep.dependency_strength * (1 - d.resilience / 100)
  else 0

/-- The claim's linear sum over all dependencies. -/
def cascadingTotalSpec (cd : ClientDataModel) (a : AssessmentModel) (base : ℚ) : ℚ :=
  (cd.dependencies.map (dependencyContribution cd a base)).sum

/-- Concrete upstream assessment used by witnesses. -/
def assessW : AssessmentModel :=
  { process_id := "A", risk_id := "P1.1", vulnerability := 100, resilience := 0 }

/-- Concrete client data used by witnesses: two processes, assessments on the
same risk for both, and one dependency from A to B. -/
def cdW : ClientDataModel :=
  { client_name := "Acme", industry := "Manufacturing", geography := "EU",
    processes := [ { id := "A", name := "Production", criticality_eur_per_day := 1000 },
                   { id := "B", name := "Logistics", criticality_eur_per_day := 500 } ],
    assessments := [ assessW,
                     { process_id := "B", risk_id := "P1.1", vulnerability := 50, resilience := 20 } ],
    dependencies := [ { upstream_process_id := "A", downstream_process_id := "B",
                        dependency_strength := 1/2 } ] }

/-- An assessment whose process and risk lookups both succeed. -/
def validAssessment (cd : ClientDataModel) (a : AssessmentModel) : Bool :=
  (processLookup cd.processes a.process_id).isSome && (riskLookup a.risk_id).isSome

/-- An assessment referring to a risk id that is not in the catalog. -/
def assessBad : AssessmentModel :=
  { process_id := "A", risk_id := "ZZZ", vulnerability := 10, resilience := 10 }

/-- A rational that is a whole number of cents. -/
def IsCent (q : ℚ) : Prop := ∃ z : ℤ, q = (z : ℚ) / 100

/-- Concrete client data for the C8 counterexample: one submitted process
with a half-strength dependency onto an unsubmitted downstream process whose
assessment only donates its resilience, so that the cascading share of the
total is exactly one third. -/
def cdC8 : ClientDataModel :=
  { client_name := "Acme", industry := "Manufacturing", geography := "EU",
    processes := [ { id := "A", name := "Alpha", criticality_eur_per_day := 1000 } ],
    assessments := [ { process_id := "A", risk_id := "P1.1", vulnerability := 100, resilience := 0 },
                     { process_id := "B", risk_id := "P1.1", vulnerability := 0, resilience := 0 } ],
    dependencies := [ { upstream_process_id := "A", downstream_process_id := "B",
                        dependency_strength := 1/2 } ] }

/-- The `Signal` (fields relevant to the probability engine; signal type,
severity, url and timestamp play no role in any claim). -/
structure Signal where
  source : String
  multiplier : ℚ
  description : String
  risk_ids : List String
deriving DecidableEq

/-- A live `Risk` (name, baseline, live probability and update counter;
domain, description, confidence and timestamps play no role here). -/
structure Risk where
  id : String
  name : String
  probability_baseline : ℚ
  probability_live : ℚ
  update_count : ℕ
deriving DecidableEq

/-- The `ProbabilityUpdate` audit record (generated uuid and timestamp are
ambient IO and omitted). -/
structure ProbabilityUpdate where
  risk_id : String
  probability_before : ℚ
  probability_after : ℚ
  update_reason : String
  signals : List Signal
  data_sources_checked : List String
deriving DecidableEq

/-- The mutable state of `DataStore`: current risks (a dict in key insertion
order), the probability-update audit log and the signal history. -/
structure DataStore where
  risks : List Risk
  updates : List ProbabilityUpdate
  signals : List Signal
deriving DecidableEq

/-- The per-element effect on the risks table of one
`DataStore.update_risk_probability` call: the risk carrying the updated id
gets the clamped live probability and an incremented update counter. -/
def updatedRisk (risk_id : String) (clamped : ℚ) (r : Risk) : Risk :=
  if r.id == risk_id then
    { r with probability_live := clamped, update_count := r.update_count + 1 }
  else r

/-- The multiplicative model: `new_prob = b; for s in sigs: new_prob *= s.multiplier`. -/
def applyMultipliers (b : ℚ) (sigs : List Signal) : ℚ :=
  sigs.foldl (fun acc sg => acc * sg.multiplier) b

/-- The `DataStore.add_signals`. -/
def add_signals (s : DataStore) (sigs : List Signal) : DataStore :=
  { s with signals := s.signals ++ sigs }

/-- The `DataStore.update_risk_probability`: raises (here: returns an error with
the store untouched) when the risk id is unknown; otherwise clamps the new
probability to [0, 100], rewrites the risk's live probability and update
counter, and appends an audit record. -/
def update_risk_probability (s : DataStore) (risk_id : String) (new_probability : ℚ)
    (sigs : List Signal) (reason : String) (sources : List String) :
    DataStore × Except String ProbabilityUpdate :=
  match s.risks.find? (fun r => r.id == risk_id) with
  | none => (s, Except.error ("Risk " ++ risk_id ++ " not found"))
  | some risk =>
      let old_probability := risk.probability_live
      let clamped := max 0 (min 100 new_probability)
      let upd : ProbabilityUpdate :=
        { risk_id := risk_id, probability_before := old_probability,
          probability_after := clamped, update_reason := reason,
          signals := sigs, data_sources_checked := sources }
      let risks' := s.risks.map (updatedRisk risk_id clamped)
      ({ s with risks := risks', updates := s.updates ++ [upd] }, Except.ok upd)

/-- The `SignalCollector.collect_cisa_signals`. -/
def collect_cisa_signals : List Signal :=
  [ { source := "CISA", multiplier := 1.15,
      description := "New ransomware campaign targeting industrial control systems",
      risk_ids := ["D1.1", "D1.2"] } ]

/-- The `SignalCollector.collect_news_signals` (default geography). -/
def collect_news_signals : List Signal :=
  [ { source := "Google News", multiplier := 1.10,
      description := "Increased news coverage of trade tensions (Global)",
      risk_ids := ["S1.1"] } ]

/-- The `SignalCollector.collect_weather_signals`. -/
def collect_weather_signals : List Signal :=
  [ { source := "OpenWeatherMap", multiplier := 1.08,
      description := "Extended heat wave forecast for Southern Europe",
      risk_ids := ["P3.1"] } ]

/-- The `SignalCollector.collect_gdelt_signals`. -/
def collect_gdelt_signals : List Signal :=
  [ { source := "GDELT", multiplier := 1.05,
      description := "Increased mentions of supply chain disruptions in global news",
      risk_ids := ["O1.1", "O3.1"] } ]

/-- The `SignalCollector.collect_usgs_signals` (no significant earthquakes). -/
def collect_usgs_signals : List Signal := []

/-- The `SignalCollector.collect_all_signals`. -/
def collect_all_signals : List Signal :=
  collect_cisa_signals ++ collect_news_signals ++ collect_weather_signals ++
    collect_gdelt_signals ++ collect_usgs_signals

/-- One insertion into the `risk_signals` dict:
`risk_signals.setdefault(risk_id, []).append(signal)` in key insertion
order. -/
def insertSignal (acc : List (String × List Signal)) (risk_id : String) (sg : Signal) :
    List (String × List Signal) :=
  if acc.any (fun kv => kv.1 == risk_id) then
    acc.map (fun kv => if kv.1 == risk_id then (kv.1, kv.2 ++ [sg]) else kv)
  else acc ++ [(risk_id, [sg])]

/-- The grouping loop of `update_all_probabilities`: every signal is appended
to the bucket of every risk id it declares, buckets in key insertion
order. -/
def groupByRisk (sigs : List Signal) : List (String × List Signal) :=
  sigs.foldl (fun acc sg => sg.risk_ids.foldl (fun a rid => insertSignal a rid sg) acc) []

/-- One row of the returned `updates` summary. -/
structure UpdateSummary where
  risk_id : String
  risk_name : String
  probability_before : ℚ
  probability_after : ℚ
  change : ℚ
  signals_count : ℕ
deriving DecidableEq

/-- The structured result of `update_all_probabilities`. -/
structure EngineResult where
  signals_collected : ℕ
  risks_updated : ℕ
  sources_checked : List String
  updates : List UpdateSummary
deriving DecidableEq

/-- The fixed `sources_checked` list of the source. -/
def sourcesChecked : List String :=
  ["CISA", "Google News", "OpenWeatherMap", "GDELT", "USGS"]

/-- The human-readable update reason built from the grouped signals. -/
def mkReason (sigs : List Signal) : String :=
  "Updated based on " ++ toString sigs.length ++ " signal(s): " ++
    String.intercalate "; " (sigs.map (fun sg => sg.source ++ ": " ++ sg.description))

/-- The body of the per-risk loop of `update_all_probabilities`: skip the
group if the risk id is unknown, otherwise recompute from the baseline with
the multiplicative model and persist through
`DataStore.update_risk_probability`. -/
def processGroup (st : DataStore × List UpdateSummary) (g : String × List Signal) :
    DataStore × List UpdateSummary :=
  match st.1.risks.find? (fun r => r.id == g.1) with
  | none => st
  | some risk =>
      let new_prob := applyMultipliers risk.probability_baseline g.2
      let reason := mkReason g.2
      match update_risk_probability st.1 g.1 new_prob g.2 reason sourcesChecked with
      | (s', Except.ok upd) =>
          (s', st.2 ++ [{ risk_id := g.1, risk_name := risk.name,
                          probability_before := upd.probability_before,
                          probability_after := upd.probability_after,
                          change := upd.probability_after - upd.probability_before,
                          signals_count := g.2.length }])
      | (s', Except.error _) => (s', st.2)

/-- The `ProbabilityEngine.update_all_probabilities`: the collected signal list
(the value returned by `SignalCollector.collect_all_signals`, which in the
source is the first statement of this function) is passed explicitly. -/
def update_all_probabilities (collected : List Signal) (s : DataStore) :
    DataStore × EngineResult :=
  let s1 := add_signals s collected
  let groups := groupByRisk collected
  let folded := groups.foldl processGroup (s1, [])
  (folded.1,
   { signals_collected := collected.length, risks_updated := folded.2.length,
     sources_checked := sourcesChecked, updates := folded.2 })

/-- A small concrete store used by witnesses. -/
def storeW : DataStore :=
  { risks := [ { id := "D1.1", name := "Ransomware targeting ICS/SCADA systems",
                 probability_baseline := 55, probability_live := 55, update_count := 0 },
               { id := "S1.1", name := "US-China trade war escalation (tariffs >50%)",
                 probability_baseline := 40, probability_live := 40, update_count := 0 } ],
    updates := [], signals := [] }

/-- The bucket of a risk id in a grouped association list. -/
def bucketGet (l : List (String × List Signal)) (rid : String) : List Signal :=
  (l.lookup rid).getD []

/-- The baseline probability of the first risk in the table carrying a given
id (`store.risks[risk_id]` of the source), with an explicit default for the
impossible missing case. -/
def firstBaseline (risks : List Risk) (rid : String) (d : ℚ) : ℚ :=
  match risks.find? (fun r => r.id == rid) with
  | some r0 => r0.probability_baseline
  | none => d

/-- The per-entry effect of one full engine run on the risks table: an entry
whose id was grouped gets the clamped multiplicative recomputation from the
baseline; any other entry is untouched. -/
def entryUpdate (groups : List (String × List Signal)) (risks0 : List Risk) (r : Risk) : Risk :=
  match groups.lookup r.id with
  | some sigs =>
      { r with
        probability_live := max 0 (min 100
          (applyMultipliers (firstBaseline risks0 r.id r.probability_baseline) sigs)),
        update_count := r.update_count + 1 }
  | none => r

/-- A concrete signal naming one unknown and one known risk id. -/
def sgW : Signal :=
  { source := "CISA", multiplier := 1.2,
    description := "New campaign", risk_ids := ["QQ.9", "D1.1"] }

/-- A concrete collected-signal list for the C10 witness. -/
def signalsW : List Signal := [sgW]

/-! ## Theorems -/

/-- C1: for every `criticality_eur`, `vulnerability`, `resilience` and
`probability`, `calculate_base_exposure` returns exactly
`criticality_eur * (vulnerability/100) * (1 - resilience/100) *
(probability/100) * 365`; the inputs are quantified over all rationals, so
out-of-range inputs give the same unguarded arithmetic result (no clamping
anywhere). -/
theorem base_exposure_formula_unclamped (criticality_eur vulnerability resilience probability : ℚ) :
    calculate_base_exposure criticality_eur vulnerability resilience probability =
      criticality_eur * (vulnerability / 100) * (1 - resilience / 100) *
        (probability / 100) * 365 := by
  simp [calculate_base_exposure]

/-- C9: for criticality ≥ 0 and vulnerability, resilience, probability in
[0, 100], `calculate_base_exposure` is monotonically non-decreasing in
vulnerability, probability and criticality, and non-increasing in
resilience. -/
theorem base_exposure_monotonicity (c c' v v' r r' p p' : ℚ)
    (hc : 0 ≤ c) (hc' : 0 ≤ c')
    (hv : 0 ≤ v) (hv100 : v ≤ 100) (hv' : 0 ≤ v') (hv100' : v' ≤ 100)
    (hr : 0 ≤ r) (hr100 : r ≤ 100) (hr' : 0 ≤ r') (hr100' : r' ≤ 100)
    (hp : 0 ≤ p) (hp100 : p ≤ 100) (hp' : 0 ≤ p') (hp100' : p' ≤ 100) :
    (v ≤ v' → calculate_base_exposure c v r p ≤ calculate_base_exposure c v' r p) ∧
    (p ≤ p' → calculate_base_exposure c v r p ≤ calculate_base_exposure c v r p') ∧
    (c ≤ c' → calculate_base_exposure c v r p ≤ calculate_base_exposure c' v r p) ∧
    (r ≤ r' → calculate_base_exposure c v r' p ≤ calculate_base_exposure c v r p) := by
  simp only [calculate_base_exposure]
  have h100r : (0:ℚ) ≤ 100 - r := by linarith
  have h100r' : (0:ℚ) ≤ 100 - r' := by linarith
  refine ⟨fun h => ?_, fun h => ?_, fun h => ?_, fun h => ?_⟩
  · nlinarith [mul_nonneg (mul_nonneg hc h100r) hp, mul_nonneg hc hp,
      mul_nonneg (mul_nonneg (mul_nonneg hc h100r) hp) (sub_nonneg.mpr h)]
  · nlinarith [mul_nonneg (mul_nonneg hc h100r) hv,
      mul_nonneg (mul_nonneg (mul_nonneg hc h100r) hv) (sub_nonneg.mpr h)]
  · nlinarith [mul_nonneg (mul_nonneg hv h100r) hp,
      mul_nonneg (mul_nonneg (mul_nonneg hv h100r) hp) (sub_nonneg.mpr h)]
  · nlinarith [mul_nonneg (mul_nonneg hc hv) hp,
      mul_nonneg (mul_nonneg (mul_nonneg hc hv) hp) (sub_nonneg.mpr h)]

/-- Witness for C9 at a concrete point of the valid box. -/
theorem base_exposure_monotonicity_witness :
    ((10:ℚ) ≤ 20 → calculate_base_exposure 2 10 30 50 ≤ calculate_base_exposure 2 20 30 50) ∧
    ((50:ℚ) ≤ 60 → calculate_base_exposure 2 10 30 50 ≤ calculate_base_exposure 2 10 30 60) ∧
    ((2:ℚ) ≤ 3 → calculate_base_exposure 2 10 30 50 ≤ calculate_base_exposure 3 10 30 50) ∧
    ((30:ℚ) ≤ 40 → calculate_base_exposure 2 10 40 50 ≤ calculate_base_exposure 2 10 30 50) :=
  base_exposure_monotonicity 2 3 10 20 30 40 50 60
    (by norm_num) (by norm_num) (by norm_num) (by norm_num) (by norm_num) (by norm_num)
    (by norm_num) (by norm_num) (by norm_num) (by norm_num) (by norm_num) (by norm_num)
    (by norm_num) (by norm_num)

/-- The dependency fold of the source accumulates exactly the per-dependency
contributions. -/
theorem cascadingTotal_foldl_eq_sum (cd : ClientDataModel) (a : AssessmentModel) (base : ℚ) :
    ∀ (deps : List DependencyModel) (acc : ℚ),
      deps.foldl
        (fun acc dep =>
          if dep.upstream_process_id == a.process_id then
            match cd.assessments.filter
                (fun x => x.process_id == dep.downstream_process_id && x.risk_id == a.risk_id) with
            | [] => acc
            | d :: _ =>
                acc + calculate_cascading_exposure base dep.dependency_strength d.resilience
          else acc)
        acc
      = acc + (deps.map (dependencyContribution cd a base)).sum := by
  intro deps
  induction deps with
  | nil => intro acc; simp
  | cons dep tl ih =>
      intro acc
      simp only [List.foldl_cons, List.map_cons, List.sum_cons, ih]
      have hstep :
          (if dep.upstream_process_id == a.process_id then
            match cd.assessments.filter
                (fun x => x.process_id == dep.downstream_process_id && x.risk_id == a.risk_id) with
            | [] => acc
            | d :: _ =>
                acc + calculate_cascading_exposure base dep.dependency_strength d.resilience
          else acc)
          = acc + dependencyContribution cd a base dep := by
        unfold dependencyContribution
        by_cases hup : (dep.upstream_process_id == a.process_id) = true
        · simp only [hup, if_true]
          cases cd.assessments.filter
              (fun x => x.process_id == dep.downstream_process_id && x.risk_id == a.risk_id) with
          | nil => simp
          | cons d rest => simp [calculate_cascading_exposure]
        · simp [hup]
      rw [hstep]
      ring

/-- C2: with cascading enabled and a non-empty dependency list, an
assessment's cascading exposure is exactly the linear sum of the
per-dependency contributions (each `base * strength * (1 - downstream
resilience/100)`, the resilience taken from the first matching downstream
assessment in input order; dependencies with no matching downstream
assessment contribute nothing). -/
theorem cascading_exposure_is_linear_sum (cd : ClientDataModel) (a : AssessmentModel) (base : ℚ)
    (hdeps : cd.dependencies ≠ []) :
    cascadingExposureOf cd true a base = cascadingTotalSpec cd a base := by
  have hne : cd.dependencies.isEmpty = false := by
    cases h : cd.dependencies with
    | nil => exact absurd h hdeps
    | cons d tl => simp [List.isEmpty]
  unfold cascadingExposureOf cascadingTotal cascadingTotalSpec
  simp only [hne, Bool.not_false, Bool.and_self, if_true]
  rw [cascadingTotal_foldl_eq_sum]
  ring

/-- Witness for C2 on concrete client data. -/
theorem cascading_exposure_is_linear_sum_witness :
    cascadingExposureOf cdW true assessW 43800 = cascadingTotalSpec cdW assessW 43800 :=
  cascading_exposure_is_linear_sum cdW assessW 43800 (by decide)

/-- The `buildRecord` succeeds exactly on valid assessments. -/
theorem buildRecord_isSome (cd : ClientDataModel) (u : Bool) (a : AssessmentModel) :
    (buildRecord cd u a).isSome = validAssessment cd a := by
  unfold buildRecord validAssessment
  cases processLookup cd.processes a.process_id <;> cases riskLookup a.risk_id <;> simp

/-- Generic: the length of a `filterMap` is the number of elements on which
the function succeeds. -/
theorem length_filterMap_eq_length_filter {α β : Type} (f : α → Option β) (l : List α) :
    (l.filterMap f).length = (l.filter (fun x => (f x).isSome)).length := by
  induction l with
  | nil => simp
  | cons x tl ih =>
      cases h : f x <;> simp [List.filterMap_cons, List.filter_cons, h, ih]

/-- C5: an assessment whose process id is not among the submitted processes
or whose risk id is not in the catalog yields no exposure record; every
output record comes from some assessment, and there are exactly as many
records as valid assessments (best-effort partial result, no error). -/
theorem missing_reference_skipped (cd : ClientDataModel) (u : Bool) (a : AssessmentModel)
    (h : processLookup cd.processes a.process_id = none ∨ riskLookup a.risk_id = none) :
    buildRecord cd u a = none ∧
    (∀ rec ∈ (calculate_all_exposures cd u).exposures,
        ∃ a₀, a₀ ∈ cd.assessments ∧ buildRecord cd u a₀ = some rec) ∧
    (calculate_all_exposures cd u).exposures.length =
      (cd.assessments.filter (fun x => validAssessment cd x)).length := by
  refine ⟨?_, ?_, ?_⟩
  · rcases h with h | h <;> unfold buildRecord <;> rw [h] <;>
      first
        | rfl
        | (cases processLookup cd.processes a.process_id <;> rfl)
  · intro rec hrec
    have hmem : rec ∈ rawRecords cd u := by
      have : (calculate_all_exposures cd u).exposures =
          sortRecords (rawRecords cd u) := rfl
      rw [this] at hrec
      exact List.mem_mergeSort.mp hrec
    exact List.mem_filterMap.mp hmem
  · have : (calculate_all_exposures cd u).exposures = sortRecords (rawRecords cd u) := rfl
    rw [this]
    unfold sortRecords
    rw [List.length_mergeSort]
    unfold rawRecords
    rw [length_filterMap_eq_length_filter]
    congr 1
    apply List.filter_congr
    intro x _
    exact buildRecord_isSome cd u x

/-- Witness for C5: concrete client data with an unknown risk id. -/
theorem missing_reference_skipped_witness :
    buildRecord cdW true assessBad = none ∧
    (∀ rec ∈ (calculate_all_exposures cdW true).exposures,
        ∃ a₀, a₀ ∈ cdW.assessments ∧ buildRecord cdW true a₀ = some rec) ∧
    (calculate_all_exposures cdW true).exposures.length =
      (cdW.assessments.filter (fun x => validAssessment cdW x)).length :=
  missing_reference_skipped cdW true assessBad (Or.inr (by decide))

/-- The `exposureLE` is transitive. -/
theorem exposureLE_trans (a b c : ExposureRecord) :
    exposureLE a b → exposureLE b c → exposureLE a c := by
  unfold exposureLE
  intro h₁ h₂
  simp only [decide_eq_true_eq] at h₁ h₂ ⊢
  exact le_trans h₂ h₁

/-- The `exposureLE` is total. -/
theorem exposureLE_total (a b : ExposureRecord) :
    exposureLE a b || exposureLE b a := by
  unfold exposureLE
  rcases le_total a.total_exposure_eur b.total_exposure_eur with h | h <;> simp [h]

/-- C7: the output exposure list is sorted by `total_exposure_eur`
descending, is a permutation of the input-order records (the full record is
the sort unit), and the sort is stable: for every key value, the records
carrying that exact total appear in the same relative order as in input
order. -/
theorem exposures_sorted_descending_stable (cd : ClientDataModel) (u : Bool) :
    ((calculate_all_exposures cd u).exposures.Pairwise
        (fun x y => y.total_exposure_eur ≤ x.total_exposure_eur)) ∧
    ((calculate_all_exposures cd u).exposures.Perm (rawRecords cd u)) ∧
    (∀ t : ℚ, (calculate_all_exposures cd u).exposures.filter
          (fun e => decide (e.total_exposure_eur = t)) =
        (rawRecords cd u).filter (fun e => decide (e.total_exposure_eur = t))) := by
  have hexp : (calculate_all_exposures cd u).exposures =
      (rawRecords cd u).mergeSort exposureLE := rfl
  refine ⟨?_, ?_, ?_⟩
  · rw [hexp]
    have h := List.sorted_mergeSort exposureLE_trans
      (fun a b => exposureLE_total a b) (rawRecords cd u)
    exact h.imp (fun hab => by
      simpa [exposureLE, decide_eq_true_eq] using hab)
  · rw [hexp]
    exact List.mergeSort_perm (rawRecords cd u) exposureLE
  · intro t
    rw [hexp]
    set p : ExposureRecord → Bool := fun e => decide (e.total_exposure_eur = t) with hp
    set c : List ExposureRecord := (rawRecords cd u).filter p with hc
    have hmemc : ∀ e ∈ c, e.total_exposure_eur = t := by
      intro e he
      have := (List.mem_filter.mp he).2
      rw [hp] at this
      exact of_decide_eq_true this
    have hpair : c.Pairwise (fun a b => exposureLE a b = true) := by
      apply List.pairwise_of_forall_mem_list
      intro a ha b hb
      unfold exposureLE
      rw [hmemc a ha, hmemc b hb]
      simp
    have hsub : List.Sublist c ((rawRecords cd u).mergeSort exposureLE) :=
      List.sublist_mergeSort exposureLE_trans (fun a b => exposureLE_total a b)
        hpair (List.filter_sublist (rawRecords cd u))
    have hfix : c.filter p = c :=
      List.filter_eq_self.mpr (fun a ha => (List.mem_filter.mp ha).2)
    have h3 : List.Sublist c (((rawRecords cd u).mergeSort exposureLE).filter p) := by
      have := hsub.filter p
      rwa [hfix] at this
    have h4 : (((rawRecords cd u).mergeSort exposureLE).filter p).Perm c :=
      (List.mergeSort_perm (rawRecords cd u) exposureLE).filter p
    exact (h3.eq_of_length h4.length_eq.symm).symm

/-- The `roundHalfEven` is the identity on integers. -/
theorem roundHalfEven_intCast (z : ℤ) : roundHalfEven (z : ℚ) = z := by
  have hf : ratFloor (z : ℚ) = z := by
    simp [ratFloor, Rat.num_intCast, Rat.den_intCast]
  simp only [roundHalfEven, hf]
  norm_num

/-- The `pyRound q n` at `0` is `0`. -/
theorem pyRound_zero (n : ℕ) : pyRound 0 n = 0 := by
  have h0 : roundHalfEven 0 = 0 := by simpa using roundHalfEven_intCast 0
  simp [pyRound, h0]

/-- Rounding to two decimals always lands on a whole number of cents. -/
theorem isCent_pyRound (q : ℚ) : IsCent (pyRound q 2) :=
  ⟨roundHalfEven (q * 10 ^ 2), by norm_num [pyRound]⟩

/-- Whole-cent values are closed under addition. -/
theorem IsCent.add {a b : ℚ} (ha : IsCent a) (hb : IsCent b) : IsCent (a + b) := by
  obtain ⟨x, rfl⟩ := ha
  obtain ⟨y, rfl⟩ := hb
  exact ⟨x + y, by push_cast; ring⟩

/-- Zero is a whole number of cents. -/
theorem isCent_zero : IsCent 0 := ⟨0, by norm_num⟩

/-- A sum of whole-cent values is a whole number of cents. -/
theorem isCent_sum (l : List ℚ) (h : ∀ q ∈ l, IsCent q) : IsCent l.sum := by
  induction l with
  | nil => simpa using isCent_zero
  | cons x tl ih =>
      rw [List.sum_cons]
      exact (h x (List.mem_cons_self x tl)).add (ih (fun q hq => h q (List.mem_cons_of_mem x hq)))

/-- Rounding to two decimals does not move a whole-cent value. -/
theorem pyRound_eq_self_of_isCent {q : ℚ} (h : IsCent q) : pyRound q 2 = q := by
  obtain ⟨z, rfl⟩ := h
  have h1 : (z : ℚ) / 100 * 10 ^ 2 = (z : ℚ) := by
    norm_num
  rw [pyRound, h1, roundHalfEven_intCast]
  norm_num

/-- Every produced exposure record carries whole-cent monetary fields. -/
theorem record_fields_isCent (cd : ClientDataModel) (u : Bool) (rec : ExposureRecord)
    (h : rec ∈ rawRecords cd u) :
    IsCent rec.base_exposure_eur ∧ IsCent rec.cascading_exposure_eur ∧
      IsCent rec.total_exposure_eur := by
  obtain ⟨a, _, hbr⟩ := List.mem_filterMap.mp h
  unfold buildRecord at hbr
  cases hp : processLookup cd.processes a.process_id <;> rw [hp] at hbr
  · exact absurd hbr (by simp)
  · cases hr : riskLookup a.risk_id <;> rw [hr] at hbr
    · exact absurd hbr (by simp)
    · simp only [Option.some.injEq] at hbr
      rw [← hbr]
      exact ⟨isCent_pyRound _, isCent_pyRound _, isCent_pyRound _⟩

/-- The three summary totals are whole-cent sums of the per-record values. -/
theorem summary_totals_isCent (cd : ClientDataModel) (u : Bool) :
    IsCent (((sortRecords (rawRecords cd u)).map (·.cascading_exposure_eur)).sum) ∧
    IsCent (((sortRecords (rawRecords cd u)).map (·.total_exposure_eur)).sum) := by
  constructor <;>
    · apply isCent_sum
      intro q hq
      obtain ⟨rec, hrec, rfl⟩ := List.mem_map.mp hq
      have hmem : rec ∈ rawRecords cd u := List.mem_mergeSort.mp hrec
      rcases record_fields_isCent cd u rec hmem with ⟨h1, h2, h3⟩
      first
        | exact h2
        | exact h3

/-- On `cdC8` a single exposure record is produced, with unreduced arithmetic
spelled out (this equation holds by definitional unfolding). -/
theorem rawRecords_cdC8 :
    rawRecords cdC8 true =
      [ { risk_id := "P1.1", risk_name := "Major power grid failure (>48hr) in Europe",
          domain := "Physical", process_id := "A", process_name := "Alpha",
          criticality := 1000, vulnerability := 100, resilience := 0, probability := 12,
          base_exposure_eur := pyRound (calculate_base_exposure 1000 100 0 12) 2,
          cascading_exposure_eur :=
            pyRound (0 + calculate_cascading_exposure
              (calculate_base_exposure 1000 100 0 12) (1/2) 0) 2,
          total_exposure_eur :=
            pyRound (calculate_base_exposure 1000 100 0 12 +
              (0 + calculate_cascading_exposure
                (calculate_base_exposure 1000 100 0 12) (1/2) 0)) 2,
          confidence_level := "Medium" } ] := by rfl

/-- Counterexample to C8 as stated: on `cdC8` the cascading share of the
total is exactly 100/3 percent, but the reported `cascading_percentage` is
the rounded value 333/10, so it does not equal
`total_cascading / total_overall * 100`. -/
theorem cascading_percentage_not_exact_quotient :
    (calculate_all_exposures cdC8 true).summary.cascading_percentage ≠
      (calculate_all_exposures cdC8 true).summary.total_cascading_exposure /
        (calculate_all_exposures cdC8 true).summary.total_overall_exposure * 100 := by
  unfold calculate_all_exposures sortRecords
  rw [rawRecords_cdC8]
  simp only [List.mergeSort_singleton, List.map_cons, List.map_nil, List.sum_cons,
    List.sum_nil]
  norm_num [calculate_base_exposure, calculate_cascading_exposure, pyRound, roundHalfEven,
    ratFloor, show Int.fdiv 1000 3 = 333 from rfl]

/-- C8 (amended): `cascading_percentage` equals
`total_cascading / total_overall * 100` rounded half-to-even to one decimal
place whenever `total_overall_exposure > 0`, and is exactly `0` whenever
`total_overall_exposure ≤ 0` — in particular whenever it equals `0` (the
division-by-zero guard is policy, not an error). -/
theorem cascading_percentage_rounded_guarded (cd : ClientDataModel) (u : Bool) :
    ((calculate_all_exposures cd u).summary.cascading_percentage =
      if 0 < (calculate_all_exposures cd u).summary.total_overall_exposure then
        pyRound ((calculate_all_exposures cd u).summary.total_cascading_exposure /
          (calculate_all_exposures cd u).summary.total_overall_exposure * 100) 1
      else 0) ∧
    ((calculate_all_exposures cd u).summary.total_overall_exposure = 0 →
      (calculate_all_exposures cd u).summary.cascading_percentage = 0) := by
  rcases summary_totals_isCent cd u with ⟨htc, hto⟩
  have hTC : (calculate_all_exposures cd u).summary.total_cascading_exposure =
      ((sortRecords (rawRecords cd u)).map (·.cascading_exposure_eur)).sum :=
    pyRound_eq_self_of_isCent htc
  have hTO : (calculate_all_exposures cd u).summary.total_overall_exposure =
      ((sortRecords (rawRecords cd u)).map (·.total_exposure_eur)).sum :=
    pyRound_eq_self_of_isCent hto
  have hPC : (calculate_all_exposures cd u).summary.cascading_percentage =
      pyRound (if 0 < ((sortRecords (rawRecords cd u)).map (·.total_exposure_eur)).sum then
          ((sortRecords (rawRecords cd u)).map (·.cascading_exposure_eur)).sum /
            ((sortRecords (rawRecords cd u)).map (·.total_exposure_eur)).sum * 100
        else 0) 1 := rfl
  constructor
  · rw [hPC, hTC, hTO]
    by_cases hpos : 0 < ((sortRecords (rawRecords cd u)).map (·.total_exposure_eur)).sum
    · simp [hpos]
    · simp [hpos, pyRound_zero]
  · intro h0
    rw [hTO] at h0
    rw [hPC, h0]
    simp [pyRound_zero]

/-- C6: passing an unknown risk id to `update_risk_probability` returns the
"not found" error to the caller and leaves the store — risks, update
history and signal history — exactly as it was: no audit record is
appended, no risk field is mutated. -/
theorem unknown_risk_update_rejected (s : DataStore) (rid : String) (p : ℚ)
    (sigs : List Signal) (reason : String) (srcs : List String)
    (h : s.risks.find? (fun r => r.id == rid) = none) :
    update_risk_probability s rid p sigs reason srcs =
      (s, Except.error ("Risk " ++ rid ++ " not found")) := by
  unfold update_risk_probability
  rw [h]

/-- Witness for C6: the id "ZZZ" is not in the store. -/
theorem unknown_risk_update_rejected_witness :
    update_risk_probability storeW "ZZZ" 10 [] "no reason" [] =
      (storeW, Except.error ("Risk " ++ "ZZZ" ++ " not found")) :=
  unknown_risk_update_rejected storeW "ZZZ" 10 [] "no reason" [] (by rfl)

/-- Looking up in the append-to-existing-bucket map of `insertSignal`. -/
theorem lookup_map_insert (acc : List (String × List Signal)) (rid rid' : String) (sg : Signal) :
    (acc.map (fun kv => if kv.1 == rid then (kv.1, kv.2 ++ [sg]) else kv)).lookup rid' =
      (acc.lookup rid').map (fun b => if rid' == rid then b ++ [sg] else b) := by
  induction acc with
  | nil => rfl
  | cons kv tl ih =>
      obtain ⟨k, b⟩ := kv
      rw [List.map_cons]
      by_cases hk : (k == rid) = true
      · have hf : (if ((k, b).1 == rid) = true then ((k, b).1, (k, b).2 ++ [sg]) else (k, b)) =
            ((k : String), b ++ [sg]) := by
          simp [hk]
        rw [hf, List.lookup_cons, List.lookup_cons]
        by_cases hr : (rid' == k) = true
        · have hrr : (rid' == rid) = true := by
            rw [beq_iff_eq] at hk hr ⊢
            rw [hr, hk]
          rw [hr]
          simp [hrr]
        · have hr' : (rid' == k) = false := by simpa using hr
          rw [hr']
          simpa using ih
      · have hk' : (k == rid) = false := by simpa using hk
        have hf : (if ((k, b).1 == rid) = true then ((k, b).1, (k, b).2 ++ [sg]) else (k, b)) =
            ((k : String), b) := by
          simp [hk']
        rw [hf, List.lookup_cons, List.lookup_cons]
        by_cases hr : (rid' == k) = true
        · have hrr : (rid' == rid) = false := by
            rw [beq_iff_eq] at hr
            subst hr
            simpa using hk
          rw [hr]
          simp [hrr]
        · have hr' : (rid' == k) = false := by simpa using hr
          rw [hr']
          simpa using ih

/-- Effect of one `insertSignal` on any bucket. -/
theorem bucketGet_insertSignal (acc : List (String × List Signal)) (rid rid' : String)
    (sg : Signal) :
    bucketGet (insertSignal acc rid sg) rid' =
      bucketGet acc rid' ++ (if rid' = rid then [sg] else []) := by
  unfold insertSignal bucketGet
  by_cases hany : (acc.any (fun kv => kv.1 == rid)) = true
  · simp only [hany, if_true]
    rw [lookup_map_insert]
    cases hl : acc.lookup rid' with
    | none =>
        have hne : ¬ rid' = rid := by
          intro he
          subst he
          rcases List.any_eq_true.mp hany with ⟨kv, hmem, hbeq⟩
          have hsome : (acc.lookup rid').isSome :=
            List.lookup_isSome_iff.mpr ⟨kv, hmem, by rw [beq_iff_eq] at hbeq ⊢; exact hbeq.symm⟩
          rw [hl] at hsome
          simp at hsome
        simp [hne]
    | some b =>
        by_cases hrr : rid' = rid
        · simp [hrr]
        · simp [hrr, show (rid' == rid) = false by simpa using hrr]
  · have hany' : (acc.any (fun kv => kv.1 == rid)) = false := by
      rwa [Bool.not_eq_true] at hany
    simp only [hany', Bool.false_eq_true, if_false]
    rw [List.lookup_append]
    cases hl : acc.lookup rid' with
    | none =>
        by_cases hrr : rid' = rid
        · subst hrr
          simp [List.lookup_cons]
        · simp [List.lookup_cons, show (rid' == rid) = false by simpa using hrr, hrr]
    | some b =>
        have hne : ¬ rid' = rid := by
          intro he
          subst he
          have hsome : (acc.lookup rid').isSome := by rw [hl]; rfl
          rcases List.lookup_isSome_iff.mp hsome with ⟨kv, hmem, hbeq⟩
          have : acc.any (fun kv => kv.1 == rid') = true :=
            List.any_eq_true.mpr ⟨kv, hmem, by rw [beq_iff_eq] at hbeq ⊢; exact hbeq.symm⟩
          rw [this] at hany
          exact hany rfl
        simp [hne]

/-- Effect of the inner fold over one signal's (duplicate-free) declared
risk id list: the signal lands once in the bucket of each declared id. -/
theorem bucketGet_foldl_insert (sg : Signal) :
    ∀ (rids : List String), rids.Nodup →
      ∀ (acc : List (String × List Signal)) (rid' : String),
        bucketGet (rids.foldl (fun a rid => insertSignal a rid sg) acc) rid' =
          bucketGet acc rid' ++ (if rid' ∈ rids then [sg] else []) := by
  intro rids
  induction rids with
  | nil => intro _ acc rid'; simp
  | cons x tl ih =>
      intro hnd acc rid'
      rcases List.nodup_cons.mp hnd with ⟨hx, htl⟩
      rw [List.foldl_cons, ih htl, bucketGet_insertSignal]
      by_cases hev : rid' = x
      · subst hev
        have hnot : rid' ∉ tl := hx
        simp [hnot]
      · simp [hev, List.mem_cons]

/-- The grouping fold: each bucket collects, in input order, exactly the
signals that declare this risk id (signals with duplicate-free id lists). -/
theorem bucketGet_groupByRisk_aux (S : List Signal) :
    (∀ sg ∈ S, sg.risk_ids.Nodup) →
    ∀ (acc : List (String × List Signal)) (rid : String),
      bucketGet
          (S.foldl (fun acc sg => sg.risk_ids.foldl (fun a r => insertSignal a r sg) acc) acc)
          rid =
        bucketGet acc rid ++ S.filter (fun sg => decide (rid ∈ sg.risk_ids)) := by
  induction S with
  | nil => intro _ acc rid; simp
  | cons sg tl ih =>
      intro hnd acc rid
      rw [List.foldl_cons, ih (fun x hx => hnd x (List.mem_cons_of_mem sg hx)),
        bucketGet_foldl_insert sg sg.risk_ids (hnd sg (List.mem_cons_self sg tl)),
        List.filter_cons]
      by_cases hmem : rid ∈ sg.risk_ids
      · simp [hmem, List.append_assoc]
      · simp [hmem]

/-- The bucket of a risk id after grouping is the filter of the collected
signals naming that id, in input order. -/
theorem bucketGet_groupByRisk (S : List Signal) (hnd : ∀ sg ∈ S, sg.risk_ids.Nodup)
    (rid : String) :
    bucketGet (groupByRisk S) rid = S.filter (fun sg => decide (rid ∈ sg.risk_ids)) := by
  unfold groupByRisk
  rw [bucketGet_groupByRisk_aux S hnd [] rid]
  rfl

/-- Keys after one `insertSignal`. -/
theorem keys_insertSignal (acc : List (String × List Signal)) (rid : String) (sg : Signal) :
    (insertSignal acc rid sg).map Prod.fst =
      if acc.any (fun kv => kv.1 == rid) then acc.map Prod.fst
      else acc.map Prod.fst ++ [rid] := by
  unfold insertSignal
  by_cases hany : (acc.any (fun kv => kv.1 == rid)) = true
  · simp only [hany, if_true]
    rw [List.map_map]
    apply List.map_congr_left
    intro kv _
    simp only [Function.comp_apply]
    split <;> rfl
  · have hany' : (acc.any (fun kv => kv.1 == rid)) = false := by
      rwa [Bool.not_eq_true] at hany
    simp [hany']

/-- The `insertSignal` preserves distinctness of the keys. -/
theorem keys_nodup_insertSignal (acc : List (String × List Signal)) (rid : String) (sg : Signal)
    (h : (acc.map Prod.fst).Nodup) :
    ((insertSignal acc rid sg).map Prod.fst).Nodup := by
  rw [keys_insertSignal]
  by_cases hany : (acc.any (fun kv => kv.1 == rid)) = true
  · simpa [hany] using h
  · have hnotmem : rid ∉ acc.map Prod.fst := by
      intro hmem
      rcases List.mem_map.mp hmem with ⟨kv, hkv, hfst⟩
      exact hany (List.any_eq_true.mpr ⟨kv, hkv, by rw [beq_iff_eq]; exact hfst⟩)
    have hany' : (acc.any (fun kv => kv.1 == rid)) = false := by
      rwa [Bool.not_eq_true] at hany
    rw [hany']
    simp only [Bool.false_eq_true, if_false]
    exact h.append (List.nodup_singleton rid)
      (fun x hx hx' => by
        rcases List.mem_singleton.mp hx' with rfl
        exact hnotmem hx)

/-- Membership in the keys after one `insertSignal`. -/
theorem keys_mem_insertSignal (acc : List (String × List Signal)) (rid : String) (sg : Signal)
    (x : String) :
    x ∈ (insertSignal acc rid sg).map Prod.fst ↔ x ∈ acc.map Prod.fst ∨ x = rid := by
  rw [keys_insertSignal]
  by_cases hany : (acc.any (fun kv => kv.1 == rid)) = true
  · rw [if_pos hany]
    constructor
    · exact fun h => Or.inl h
    · rintro (h | rfl)
      · exact h
      · rcases List.any_eq_true.mp hany with ⟨kv, hkv, hbeq⟩
        exact List.mem_map.mpr ⟨kv, hkv, by rw [beq_iff_eq] at hbeq; exact hbeq⟩
  · have hany' : (acc.any (fun kv => kv.1 == rid)) = false := by
      rwa [Bool.not_eq_true] at hany
    rw [hany']
    simp

/-- Keys stay distinct through the inner fold over a signal's risk ids. -/
theorem keys_nodup_foldl_inner (sg : Signal) :
    ∀ (rids : List String) (acc : List (String × List Signal)),
      (acc.map Prod.fst).Nodup →
      (((rids.foldl (fun a r => insertSignal a r sg) acc)).map Prod.fst).Nodup := by
  intro rids
  induction rids with
  | nil => intro acc h; simpa
  | cons x tl ih =>
      intro acc h
      rw [List.foldl_cons]
      exact ih _ (keys_nodup_insertSignal acc x sg h)

/-- Membership in the keys after the inner fold. -/
theorem keys_mem_foldl_inner (sg : Signal) :
    ∀ (rids : List String) (acc : List (String × List Signal)) (x : String),
      (x ∈ ((rids.foldl (fun a r => insertSignal a r sg) acc)).map Prod.fst) ↔
        x ∈ acc.map Prod.fst ∨ x ∈ rids := by
  intro rids
  induction rids with
  | nil => intro acc x; simp
  | cons r tl ih =>
      intro acc x
      rw [List.foldl_cons, ih, keys_mem_insertSignal]
      simp [List.mem_cons, or_assoc]

/-- The grouped dict has pairwise distinct keys. -/
theorem groupByRisk_keys_nodup (S : List Signal) :
    ((groupByRisk S).map Prod.fst).Nodup := by
  unfold groupByRisk
  suffices h : ∀ (acc : List (String × List Signal)), (acc.map Prod.fst).Nodup →
      (((S.foldl (fun acc sg => sg.risk_ids.foldl (fun a r => insertSignal a r sg) acc) acc)).map
        Prod.fst).Nodup by
    exact h [] (by simp)
  induction S with
  | nil => intro acc h; simpa
  | cons sg tl ih =>
      intro acc h
      rw [List.foldl_cons]
      exact ih _ (keys_nodup_foldl_inner sg sg.risk_ids acc h)

/-- A risk id is a key of the grouped dict exactly when some collected
signal names it. -/
theorem keys_groupByRisk_mem (S : List Signal) (x : String) :
    x ∈ (groupByRisk S).map Prod.fst ↔ ∃ sg ∈ S, x ∈ sg.risk_ids := by
  unfold groupByRisk
  suffices h : ∀ (acc : List (String × List Signal)),
      (x ∈ ((S.foldl (fun acc sg => sg.risk_ids.foldl (fun a r => insertSignal a r sg) acc)
        acc)).map Prod.fst) ↔ x ∈ acc.map Prod.fst ∨ ∃ sg ∈ S, x ∈ sg.risk_ids by
    rw [h []]
    simp
  induction S with
  | nil => intro acc; simp
  | cons sg tl ih =>
      intro acc
      rw [List.foldl_cons, ih, keys_mem_foldl_inner]
      simp [or_assoc]

/-- A key not among the keys of an association list looks up to `none`. -/
theorem lookup_eq_none_of_not_mem_keys (l : List (String × List Signal)) (rid : String)
    (h : rid ∉ l.map Prod.fst) : l.lookup rid = none := by
  apply List.lookup_eq_none_iff.mpr
  intro p hp
  have hne : rid ≠ p.1 := fun he => h (List.mem_map.mpr ⟨p, hp, he.symm⟩)
  simpa using hne

/-- A key among the keys of an association list looks up to `some`. -/
theorem lookup_isSome_of_mem_keys (l : List (String × List Signal)) (rid : String)
    (h : rid ∈ l.map Prod.fst) : (l.lookup rid).isSome := by
  rcases List.mem_map.mp h with ⟨p, hp, hfst⟩
  exact List.lookup_isSome_iff.mpr ⟨p, hp, by rw [beq_iff_eq]; exact hfst.symm⟩

/-- The `entryUpdate` never changes the id. -/
theorem entryUpdate_id (groups : List (String × List Signal)) (risks0 : List Risk) (r : Risk) :
    (entryUpdate groups risks0 r).id = r.id := by
  unfold entryUpdate
  cases groups.lookup r.id <;> rfl

/-- The `entryUpdate` never changes the baseline. -/
theorem entryUpdate_baseline (groups : List (String × List Signal)) (risks0 : List Risk)
    (r : Risk) :
    (entryUpdate groups risks0 r).probability_baseline = r.probability_baseline := by
  unfold entryUpdate
  cases groups.lookup r.id <;> rfl

/-- The `updatedRisk` never changes the id. -/
theorem updatedRisk_id (k : String) (cl : ℚ) (r : Risk) : (updatedRisk k cl r).id = r.id := by
  unfold updatedRisk
  split <;> rfl

/-- The `updatedRisk` never changes the baseline. -/
theorem updatedRisk_baseline (k : String) (cl : ℚ) (r : Risk) :
    (updatedRisk k cl r).probability_baseline = r.probability_baseline := by
  unfold updatedRisk
  split <;> rfl

/-- The `find?` by id commutes with an id-preserving map of the risks table. -/
theorem find?_map_id_preserving (risks : List Risk) (f : Risk → Risk)
    (hid : ∀ r, (f r).id = r.id) (rid : String) :
    (risks.map f).find? (fun r => r.id == rid) =
      (risks.find? (fun r => r.id == rid)).map f := by
  have hcomp : ((fun r : Risk => r.id == rid) ∘ f) = fun r : Risk => r.id == rid := by
    funext r
    simp [Function.comp_apply, hid]
  rw [List.find?_map, hcomp]

/-- The `firstBaseline` is invariant under id- and baseline-preserving maps of
the risks table. -/
theorem firstBaseline_map (risks : List Risk) (f : Risk → Risk)
    (hid : ∀ r, (f r).id = r.id) (hbl : ∀ r, (f r).probability_baseline = r.probability_baseline)
    (rid : String) (d : ℚ) :
    firstBaseline (risks.map f) rid d = firstBaseline risks rid d := by
  unfold firstBaseline
  rw [find?_map_id_preserving risks f hid]
  cases risks.find? (fun r => r.id == rid) with
  | none => rfl
  | some r0 => simp [hbl]

/-- Reduction of `processGroup` on a group whose risk id is unknown. -/
theorem processGroup_missing (st : DataStore) (res : List UpdateSummary) (k : String)
    (sigs : List Signal) (hf : st.risks.find? (fun r => r.id == k) = none) :
    processGroup (st, res) (k, sigs) = (st, res) := by
  unfold processGroup
  dsimp only
  rw [hf]

/-- Reduction of `processGroup` on a group whose risk id is present. -/
theorem processGroup_found (st : DataStore) (res : List UpdateSummary) (k : String)
    (sigs : List Signal) (risk : Risk)
    (hf : st.risks.find? (fun r => r.id == k) = some risk) :
    processGroup (st, res) (k, sigs) =
      ({ st with
          risks := st.risks.map (updatedRisk k
            (max 0 (min 100 (applyMultipliers risk.probability_baseline sigs)))),
          updates := st.updates ++ [{
            risk_id := k,
            probability_before := risk.probability_live,
            probability_after := max 0 (min 100 (applyMultipliers risk.probability_baseline sigs)),
            update_reason := mkReason sigs,
            signals := sigs,
            data_sources_checked := sourcesChecked }] },
       res ++ [{ risk_id := k, risk_name := risk.name,
                 probability_before := risk.probability_live,
                 probability_after :=
                   max 0 (min 100 (applyMultipliers risk.probability_baseline sigs)),
                 change := max 0 (min 100 (applyMultipliers risk.probability_baseline sigs)) -
                   risk.probability_live,
                 signals_count := sigs.length }]) := by
  unfold processGroup
  dsimp only
  rw [hf]
  unfold update_risk_probability
  rw [hf]

/-- One engine run maps `entryUpdate` over the risks table (the grouped dict
has pairwise distinct keys, so every group rewrites its risk exactly once,
always recomputing from the baseline). -/
theorem processGroups_risks :
    ∀ (groups : List (String × List Signal)), ((groups.map Prod.fst).Nodup) →
      ∀ (st : DataStore) (res : List UpdateSummary),
        (groups.foldl processGroup (st, res)).1.risks =
          st.risks.map (entryUpdate groups st.risks) := by
  intro groups
  induction groups with
  | nil =>
      intro _ st res
      simp only [List.foldl_nil]
      have h : st.risks.map (entryUpdate [] st.risks) = st.risks.map id :=
        List.map_congr_left (fun r _ => rfl)
      rw [h, List.map_id]
  | cons g gs ih =>
      intro hnd st res
      obtain ⟨k, sigs⟩ := g
      have hnd0 : (k :: gs.map Prod.fst).Nodup := by simpa using hnd
      rcases List.nodup_cons.mp hnd0 with ⟨hk_not, hnd'⟩
      rw [List.foldl_cons]
      cases hf : st.risks.find? (fun r => r.id == k) with
      | none =>
          rw [processGroup_missing st res k sigs hf, ih hnd' st res]
          apply List.map_congr_left
          intro r hr
          have hne : (r.id == k) = false := by
            have := List.find?_eq_none.mp hf r hr
            rwa [Bool.not_eq_true] at this
          unfold entryUpdate
          rw [List.lookup_cons, hne]
      | some risk =>
          rw [processGroup_found st res k sigs risk hf]
          rw [ih hnd']
          dsimp only
          rw [List.map_map]
          apply List.map_congr_left
          intro r hr
          have hkeq : r.id = k ∨ (r.id == k) = false := by
            by_cases h : (r.id == k) = true
            · exact Or.inl (by rwa [beq_iff_eq] at h)
            · exact Or.inr (by rwa [Bool.not_eq_true] at h)
          have hid1 : ∀ x, (updatedRisk k
              (max 0 (min 100 (applyMultipliers risk.probability_baseline sigs))) x).id = x.id :=
            fun x => updatedRisk_id _ _ x
          have hbl1 : ∀ x, (updatedRisk k
              (max 0 (min 100 (applyMultipliers risk.probability_baseline sigs)))
                x).probability_baseline = x.probability_baseline :=
            fun x => updatedRisk_baseline _ _ x
          rcases hkeq with hkeq | hkf
          · -- this entry is the updated one
            have hk : (r.id == k) = true := by rw [beq_iff_eq]; exact hkeq
            have hfr : Function.comp (entryUpdate gs (st.risks.map (updatedRisk k
                (max 0 (min 100 (applyMultipliers risk.probability_baseline sigs))))))
                (updatedRisk k
                  (max 0 (min 100 (applyMultipliers risk.probability_baseline sigs)))) r =
                entryUpdate gs (st.risks.map (updatedRisk k
                  (max 0 (min 100 (applyMultipliers risk.probability_baseline sigs)))))
                  { r with
                    probability_live :=
                      max 0 (min 100 (applyMultipliers risk.probability_baseline sigs)),
                    update_count := r.update_count + 1 } := by
              simp [Function.comp_apply, updatedRisk, hk]
            rw [hfr]
            have hnone : gs.lookup r.id = none :=
              lookup_eq_none_of_not_mem_keys gs r.id (by rw [hkeq]; exact hk_not)
            unfold entryUpdate
            dsimp only
            rw [hnone, List.lookup_cons, hk]
            unfold firstBaseline
            rw [hkeq, hf]
          · -- untouched entry
            have hfr : Function.comp (entryUpdate gs (st.risks.map (updatedRisk k
                (max 0 (min 100 (applyMultipliers risk.probability_baseline sigs))))))
                (updatedRisk k
                  (max 0 (min 100 (applyMultipliers risk.probability_baseline sigs)))) r =
                entryUpdate gs (st.risks.map (updatedRisk k
                  (max 0 (min 100 (applyMultipliers risk.probability_baseline sigs))))) r := by
              simp [Function.comp_apply, updatedRisk, hkf]
            rw [hfr]
            unfold entryUpdate
            rw [List.lookup_cons, hkf]
            cases hl : gs.lookup r.id with
            | none => rfl
            | some sigs' =>
                rw [firstBaseline_map st.risks _ hid1 hbl1]

/-- The multiplier fold is multiplication by the product of multipliers. -/
theorem applyMultipliers_eq (sigs : List Signal) :
    ∀ b : ℚ, applyMultipliers b sigs = b * (sigs.map Signal.multiplier).prod := by
  unfold applyMultipliers
  induction sigs with
  | nil => intro b; simp
  | cons sg tl ih =>
      intro b
      rw [List.foldl_cons, ih, List.map_cons, List.prod_cons]
      ring

/-- One engine run rewrites the risks table by `entryUpdate`. -/
theorem update_all_risks_eq (S : List Signal) (s : DataStore) :
    (update_all_probabilities S s).1.risks =
      s.risks.map (entryUpdate (groupByRisk S) s.risks) := by
  unfold update_all_probabilities
  dsimp only
  rw [processGroups_risks (groupByRisk S) (groupByRisk_keys_nodup S) (add_signals s S) []]
  rfl

/-- C3: for a stored risk named by at least one collected signal (each
collected signal listing a risk at most once, as every collector-produced
signal does), one engine run sets its stored `probability_live` to the
baseline multiplied by the product of the multipliers of all signals naming
it — starting from the baseline, not the current live value — clamped to
[0, 100] before being stored. -/
theorem live_probability_multiplicative (S : List Signal) (s : DataStore) (rid : String)
    (r0 : Risk)
    (hdup : ∀ sg ∈ S, sg.risk_ids.Nodup)
    (hnamed : ∃ sg ∈ S, rid ∈ sg.risk_ids)
    (hfound : s.risks.find? (fun r => r.id == rid) = some r0) :
    ∃ r1, ((update_all_probabilities S s).1.risks.find? (fun r => r.id == rid)) = some r1 ∧
      r1.probability_live = max 0 (min 100 (r0.probability_baseline *
        ((S.filter (fun sg => decide (rid ∈ sg.risk_ids))).map Signal.multiplier).prod)) := by
  rw [update_all_risks_eq,
    find?_map_id_preserving s.risks _ (fun r => entryUpdate_id _ _ r) rid, hfound]
  refine ⟨entryUpdate (groupByRisk S) s.risks r0, rfl, ?_⟩
  have hid0 : r0.id = rid := by
    have := List.find?_some hfound
    rwa [beq_iff_eq] at this
  have hkey : rid ∈ (groupByRisk S).map Prod.fst := (keys_groupByRisk_mem S rid).mpr hnamed
  have hsome := lookup_isSome_of_mem_keys (groupByRisk S) rid hkey
  cases hl : (groupByRisk S).lookup rid with
  | none =>
      rw [hl] at hsome
      simp at hsome
  | some sigs =>
      have hsigs : sigs = S.filter (fun sg => decide (rid ∈ sg.risk_ids)) := by
        have hbucket := bucketGet_groupByRisk S hdup rid
        unfold bucketGet at hbucket
        rw [hl] at hbucket
        exact hbucket
      unfold entryUpdate
      rw [hid0, hl]
      dsimp only
      unfold firstBaseline
      rw [hfound]
      rw [applyMultipliers_eq, hsigs]

/-- Witness for C3: the simulated collector output applied to a concrete
store containing risk D1.1 with baseline 55. -/
theorem live_probability_multiplicative_witness :
    ∃ r1, ((update_all_probabilities collect_all_signals storeW).1.risks.find?
        (fun r => r.id == "D1.1")) = some r1 ∧
      r1.probability_live = max 0 (min 100 (
        ({ id := "D1.1", name := "Ransomware targeting ICS/SCADA systems",
           probability_baseline := 55, probability_live := 55,
           update_count := 0 } : Risk).probability_baseline *
        ((collect_all_signals.filter (fun sg => decide ("D1.1" ∈ sg.risk_ids))).map
          Signal.multiplier).prod)) :=
  live_probability_multiplicative collect_all_signals storeW "D1.1"
    { id := "D1.1", name := "Ransomware targeting ICS/SCADA systems",
      probability_baseline := 55, probability_live := 55, update_count := 0 }
    (by decide) (by decide) (by rfl)

/-- The `entryUpdate` only depends on its risks-table argument through
`firstBaseline`. -/
theorem entryUpdate_congr_baseline (G : List (String × List Signal)) (l₁ l₂ : List Risk)
    (r : Risk)
    (h : firstBaseline l₁ r.id r.probability_baseline =
      firstBaseline l₂ r.id r.probability_baseline) :
    entryUpdate G l₁ r = entryUpdate G l₂ r := by
  unfold entryUpdate
  cases G.lookup r.id <;> simp [h]

/-- Applying the per-entry rewrite twice gives the same live probability as
applying it once: the recomputation always starts from the (invariant)
baseline. -/
theorem entryUpdate_twice_live (G : List (String × List Signal)) (risks0 : List Risk)
    (r : Risk) :
    (entryUpdate G (risks0.map (entryUpdate G risks0))
        (entryUpdate G risks0 r)).probability_live =
      (entryUpdate G risks0 r).probability_live := by
  have hfb : ∀ d, firstBaseline (risks0.map (entryUpdate G risks0)) r.id d =
      firstBaseline risks0 r.id d :=
    fun d => firstBaseline_map risks0 _ (fun x => entryUpdate_id G risks0 x)
      (fun x => entryUpdate_baseline G risks0 x) r.id d
  cases hl : G.lookup r.id with
  | none =>
      have hinner : entryUpdate G risks0 r = r := by
        unfold entryUpdate
        rw [hl]
      rw [hinner]
      have houter : entryUpdate G (risks0.map (entryUpdate G risks0)) r = r := by
        unfold entryUpdate
        rw [hl]
      rw [houter]
  | some sigs =>
      have hinner : entryUpdate G risks0 r =
          { r with
            probability_live := max 0 (min 100
              (applyMultipliers (firstBaseline risks0 r.id r.probability_baseline) sigs)),
            update_count := r.update_count + 1 } := by
        unfold entryUpdate
        rw [hl]
      rw [hinner]
      rw [entryUpdate_congr_baseline G _ risks0
        { r with
          probability_live := max 0 (min 100
            (applyMultipliers (firstBaseline risks0 r.id r.probability_baseline) sigs)),
          update_count := r.update_count + 1 } (hfb _)]
      unfold entryUpdate
      dsimp only
      rw [hl]

/-- C4: running `update_all_probabilities` twice with the same collected
signal set leaves every risk's stored `probability_live` (keyed by id, in
table order) the same after the second run as after the first: the
multiplicative model recomputes from the baseline, so there is no cumulative
drift. -/
theorem update_all_probabilities_idempotent (S : List Signal) (s : DataStore) :
    (((update_all_probabilities S ((update_all_probabilities S s).1)).1).risks.map
        (fun r => (r.id, r.probability_live))) =
      (((update_all_probabilities S s).1).risks.map
        (fun r => (r.id, r.probability_live))) := by
  rw [update_all_risks_eq S ((update_all_probabilities S s).1), update_all_risks_eq S s]
  simp only [List.map_map]
  apply List.map_congr_left
  intro r _
  simp only [Function.comp_apply]
  have hid2 := entryUpdate_id (groupByRisk S)
    (s.risks.map (entryUpdate (groupByRisk S) s.risks)) (entryUpdate (groupByRisk S) s.risks r)
  have hlive := entryUpdate_twice_live (groupByRisk S) s.risks r
  rw [Prod.mk.injEq]
  exact ⟨hid2, hlive⟩

/-- The engine fold never touches the signal history. -/
theorem processGroups_signals :
    ∀ (groups : List (String × List Signal)) (st : DataStore) (res : List UpdateSummary),
      (groups.foldl processGroup (st, res)).1.signals = st.signals := by
  intro groups
  induction groups with
  | nil => intro st res; rfl
  | cons g gs ih =>
      intro st res
      obtain ⟨k, sigs⟩ := g
      rw [List.foldl_cons]
      cases hf : st.risks.find? (fun r => r.id == k) with
      | none =>
          rw [processGroup_missing st res k sigs hf]
          exact ih st res
      | some risk =>
          rw [processGroup_found st res k sigs risk hf, ih]

/-- Presence of a risk id is invariant under `updatedRisk` maps. -/
theorem find?_isSome_map_updatedRisk (risks : List Risk) (k : String) (cl : ℚ) (rid : String) :
    ((risks.map (updatedRisk k cl)).find? (fun r => r.id == rid)).isSome =
      (risks.find? (fun r => r.id == rid)).isSome := by
  rw [find?_map_id_preserving risks _ (fun r => updatedRisk_id k cl r) rid]
  cases risks.find? (fun r => r.id == rid) <;> rfl

/-- How many audit records (in the store) and summary rows (in the result)
one engine fold appends for a given risk id: exactly one when the id is a
group key and present in the table, none otherwise. -/
theorem processGroups_filter_counts :
    ∀ (groups : List (String × List Signal)), ((groups.map Prod.fst).Nodup) →
      ∀ (st : DataStore) (res : List UpdateSummary) (rid : String),
        ((((groups.foldl processGroup (st, res)).1.updates).filter
            (fun u => u.risk_id == rid)).length =
          (st.updates.filter (fun u => u.risk_id == rid)).length +
            (if ((groups.lookup rid).isSome ∧
                (st.risks.find? (fun r => r.id == rid)).isSome) then 1 else 0)) ∧
        ((((groups.foldl processGroup (st, res)).2).filter
            (fun u => u.risk_id == rid)).length =
          (res.filter (fun u => u.risk_id == rid)).length +
            (if ((groups.lookup rid).isSome ∧
                (st.risks.find? (fun r => r.id == rid)).isSome) then 1 else 0)) := by
  intro groups
  induction groups with
  | nil =>
      intro _ st res rid
      simp
  | cons g gs ih =>
      intro hnd st res rid
      obtain ⟨k, sigs⟩ := g
      have hnd0 : (k :: gs.map Prod.fst).Nodup := by simpa using hnd
      rcases List.nodup_cons.mp hnd0 with ⟨hk_not, hnd'⟩
      rw [List.foldl_cons]
      cases hf : st.risks.find? (fun r => r.id == k) with
      | none =>
          rw [processGroup_missing st res k sigs hf]
          rcases ih hnd' st res rid with ⟨ih1, ih2⟩
          rw [ih1, ih2]
          by_cases hrk : rid = k
          · subst hrk
            rw [lookup_eq_none_of_not_mem_keys gs rid hk_not]
            simp [hf, List.lookup_cons]
          · have hrkb : (rid == k) = false := by simpa using hrk
            rw [List.lookup_cons, hrkb]
            exact ⟨rfl, rfl⟩
      | some risk =>
          rw [processGroup_found st res k sigs risk hf]
          rcases ih hnd'
            ({ st with
                risks := st.risks.map (updatedRisk k
                  (max 0 (min 100 (applyMultipliers risk.probability_baseline sigs)))),
                updates := st.updates ++ [{
                  risk_id := k,
                  probability_before := risk.probability_live,
                  probability_after :=
                    max 0 (min 100 (applyMultipliers risk.probability_baseline sigs)),
                  update_reason := mkReason sigs,
                  signals := sigs,
                  data_sources_checked := sourcesChecked }] })
            (res ++ [{ risk_id := k, risk_name := risk.name,
                       probability_before := risk.probability_live,
                       probability_after :=
                         max 0 (min 100 (applyMultipliers risk.probability_baseline sigs)),
                       change :=
                         max 0 (min 100 (applyMultipliers risk.probability_baseline sigs)) -
                           risk.probability_live,
                       signals_count := sigs.length }]) rid with ⟨ih1, ih2⟩
          rw [ih1, ih2]
          dsimp only
          rw [find?_isSome_map_updatedRisk]
          by_cases hrk : rid = k
          · subst hrk
            have hgs : gs.lookup rid = none := lookup_eq_none_of_not_mem_keys gs rid hk_not
            rw [hgs]
            simp [hf, List.lookup_cons, List.filter_append, List.filter_cons]
          · have hrkb : (rid == k) = false := by simpa using hrk
            have hkrb : (k == rid) = false := by
              simpa using (fun he => hrk he.symm : ¬ k = rid)
            rw [List.lookup_cons, hrkb]
            simp [List.filter_append, List.filter_cons, hkrb]

/-- The engine fold only ever appends to the audit log. -/
theorem processGroups_updates_append :
    ∀ (groups : List (String × List Signal)) (st : DataStore) (res : List UpdateSummary),
      ∃ tail, (groups.foldl processGroup (st, res)).1.updates = st.updates ++ tail := by
  intro groups
  induction groups with
  | nil => intro st res; exact ⟨[], by simp⟩
  | cons g gs ih =>
      intro st res
      obtain ⟨k, sigs⟩ := g
      rw [List.foldl_cons]
      cases hf : st.risks.find? (fun r => r.id == k) with
      | none =>
          rw [processGroup_missing st res k sigs hf]
          exact ih st res
      | some risk =>
          rw [processGroup_found st res k sigs risk hf]
          obtain ⟨tail, htail⟩ := ih
            { st with
              risks := st.risks.map (updatedRisk k
                (max 0 (min 100 (applyMultipliers risk.probability_baseline sigs)))),
              updates := st.updates ++ [{
                risk_id := k,
                probability_before := risk.probability_live,
                probability_after :=
                  max 0 (min 100 (applyMultipliers risk.probability_baseline sigs)),
                update_reason := mkReason sigs,
                signals := sigs,
                data_sources_checked := sourcesChecked }] }
            (res ++ [{ risk_id := k, risk_name := risk.name,
                       probability_before := risk.probability_live,
                       probability_after :=
                         max 0 (min 100 (applyMultipliers risk.probability_baseline sigs)),
                       change :=
                         max 0 (min 100 (applyMultipliers risk.probability_baseline sigs)) -
                           risk.probability_live,
                       signals_count := sigs.length }])
          refine ⟨{ risk_id := k,
                    probability_before := risk.probability_live,
                    probability_after :=
                      max 0 (min 100 (applyMultipliers risk.probability_baseline sigs)),
                    update_reason := mkReason sigs,
                    signals := sigs,
                    data_sources_checked := sourcesChecked } :: tail, ?_⟩
          rw [htail]
          dsimp only
          rw [List.append_assoc]
          rfl

/-- C10: a collected signal naming a risk id that is not in the store is
skipped silently for that id — no error, no audit record, no risk state for
it, and no contribution to `risks_updated` — while the signal itself is
persisted to the signal history and every risk id that is named by some
collected signal and is present in the store still receives exactly one new
audit record. -/
theorem unknown_signal_risk_skipped (S : List Signal) (s : DataStore) (rid : String)
    (sg : Signal) (hsg : sg ∈ S) (hrid : rid ∈ sg.risk_ids)
    (hmissing : s.risks.find? (fun r => r.id == rid) = none) :
    ((update_all_probabilities S s).1.signals = s.signals ++ S) ∧
    ((update_all_probabilities S s).1.risks.find? (fun r => r.id == rid) = none) ∧
    ((update_all_probabilities S s).1.updates.filter (fun u => u.risk_id == rid) =
      s.updates.filter (fun u => u.risk_id == rid)) ∧
    ((update_all_probabilities S s).2.risks_updated =
      ((update_all_probabilities S s).2.updates).length) ∧
    ((update_all_probabilities S s).2.updates.filter (fun u => u.risk_id == rid) = []) ∧
    (∀ rid', (∃ sg' ∈ S, rid' ∈ sg'.risk_ids) →
      ((s.risks.find? (fun r => r.id == rid')).isSome) →
      ((update_all_probabilities S s).1.updates.filter (fun u => u.risk_id == rid')).length =
        (s.updates.filter (fun u => u.risk_id == rid')).length + 1) := by
  have hnodup := groupByRisk_keys_nodup S
  refine ⟨?_, ?_, ?_, ?_, ?_, ?_⟩
  · show (((groupByRisk S).foldl processGroup (add_signals s S, [])).1).signals = s.signals ++ S
    rw [processGroups_signals]
    rfl
  · rw [update_all_risks_eq,
      find?_map_id_preserving s.risks _ (fun r => entryUpdate_id _ _ r) rid, hmissing]
    rfl
  · rcases processGroups_updates_append (groupByRisk S) (add_signals s S) [] with ⟨tail, htail⟩
    have h := (processGroups_filter_counts (groupByRisk S) hnodup (add_signals s S) [] rid).1
    have hmiss' : (add_signals s S).risks.find? (fun r => r.id == rid) = none := hmissing
    rw [hmiss'] at h
    simp only [Option.isSome_none, Bool.false_eq_true, and_false, if_false, Nat.add_zero] at h
    show (((groupByRisk S).foldl processGroup (add_signals s S, [])).1).updates.filter
        (fun u => u.risk_id == rid) = s.updates.filter (fun u => u.risk_id == rid)
    rw [htail] at h ⊢
    rw [List.filter_append] at h ⊢
    rw [List.length_append] at h
    have h0 : ((tail.filter (fun u => u.risk_id == rid))).length = 0 := by omega
    rw [List.length_eq_zero.mp h0, List.append_nil]
    rfl
  · rfl
  · have h := (processGroups_filter_counts (groupByRisk S) hnodup (add_signals s S) [] rid).2
    have hmiss' : (add_signals s S).risks.find? (fun r => r.id == rid) = none := hmissing
    rw [hmiss'] at h
    simp only [Option.isSome_none, Bool.false_eq_true, and_false, if_false, Nat.add_zero,
      List.filter_nil, List.length_nil] at h
    exact List.length_eq_zero.mp h
  · intro rid' hnamed hsome'
    have hkey : rid' ∈ (groupByRisk S).map Prod.fst := (keys_groupByRisk_mem S rid').mpr hnamed
    have hlk := lookup_isSome_of_mem_keys (groupByRisk S) rid' hkey
    have h := (processGroups_filter_counts (groupByRisk S) hnodup (add_signals s S) [] rid').1
    have hsome'' : ((add_signals s S).risks.find? (fun r => r.id == rid')).isSome = true :=
      hsome'
    rw [if_pos ⟨hlk, hsome''⟩] at h
    exact h

/-- Witness for C10: the id "QQ.9" is named by a collected signal but absent
from the store. -/
theorem unknown_signal_risk_skipped_witness :
    ((update_all_probabilities signalsW storeW).1.signals = storeW.signals ++ signalsW) ∧
    ((update_all_probabilities signalsW storeW).1.risks.find?
        (fun r => r.id == "QQ.9") = none) ∧
    ((update_all_probabilities signalsW storeW).1.updates.filter
        (fun u => u.risk_id == "QQ.9") =
      storeW.updates.filter (fun u => u.risk_id == "QQ.9")) ∧
    ((update_all_probabilities signalsW storeW).2.risks_updated =
      ((update_all_probabilities signalsW storeW).2.updates).length) ∧
    ((update_all_probabilities signalsW storeW).2.updates.filter
        (fun u => u.risk_id == "QQ.9") = []) ∧
    (∀ rid', (∃ sg' ∈ signalsW, rid' ∈ sg'.risk_ids) →
      ((storeW.risks.find? (fun r => r.id == rid')).isSome) →
      ((update_all_probabilities signalsW storeW).1.updates.filter
          (fun u => u.risk_id == rid')).length =
        (storeW.updates.filter (fun u => u.risk_id == rid')).length + 1) :=
  unknown_signal_risk_skipped signalsW storeW "QQ.9" sgW (List.mem_cons_self sgW [])
    (by decide) (by rfl)

end PrismBrain
